import Mathlib

/-!
Shallow embedding of the MCP proxy server
(`additional_features/mcp_proxy_only.py`): JSON values, the argument
normalizer, the thinking-budget mapping, the Gemini credential-rotation
gateway, the MCP transport client, the tool-calling loop, the
data-availability classifier, and the knowledge-base query gating.
External HTTP effects are parametrised by explicit outcome values.
-/

namespace McpProxy

/-- A JSON value as produced by `json.loads` / consumed by `json.dumps`.
Numbers are modelled as integers (the claims under study only involve
integral or string-embedded numerics); objects are association lists with
unique keys, matching Python dicts in insertion order. -/
inductive JsonV where
  | null
  | bool (b : Bool)
  | num (n : Int)
  | str (s : String)
  | arr (xs : List JsonV)
  | obj (fields : List (String × JsonV))

/-- Python truthiness (`if value:`) of a JSON value: `None`, `False`, `0`,
`""`, `[]` and `{}` are falsy, everything else is truthy. -/
def truthy : JsonV → Bool
  | .null => false
  | .bool b => b
  | .num n => !(n == 0)
  | .str s => !(s == "")
  | .arr xs => !xs.isEmpty
  | .obj fs => !fs.isEmpty

/-- An argument dictionary, as passed to `fix_tool_arguments`. -/
abbrev ArgDict := List (String × JsonV)

/-- `d.get(k)` on a Python dict: first binding of `k`, if any. -/
def dictGet (d : ArgDict) (k : String) : Option JsonV :=
  match d with
  | [] => none
  | (k', v) :: rest => if k' = k then some v else dictGet rest k

/-- `k in d` on a Python dict. -/
def hasKey (d : ArgDict) (k : String) : Bool :=
  match d with
  | [] => false
  | (k', _) :: rest => if k' = k then true else hasKey rest k

/-- `d[k] = v` on a Python dict: update in place if the key exists,
otherwise append (Python dicts preserve insertion order). -/
def dictSet (d : ArgDict) (k : String) (v : JsonV) : ArgDict :=
  if hasKey d k then d.map (fun p => if p.1 = k then (k, v) else p)
  else d ++ [(k, v)]

/-- `truthy` of `d.get(k)`, with absent keys behaving like `None`. -/
def truthyOpt : Option JsonV → Bool
  | none => false
  | some j => truthy j

/-- The predicate `fix_tool_arguments` filters with (`v is not None`). -/
def keepNonNull (p : String × JsonV) : Bool :=
  match p.2 with
  | JsonV.null => false
  | _ => true

/-- `fix_tool_arguments` (mcp_proxy_only.py, lines 455-478): repairs
model-produced tool arguments.  For `get_observations`: force
`date = "range"` when truthy range parameters are present and `date` is
not already the string `"range"`; default `date = "latest"` when absent;
strip `None`-valued entries.  For `search_indicators`: wrap a string-typed
`places` into a one-element list.  All other tools pass through. -/
def fixToolArguments (name : String) (arguments : ArgDict) : ArgDict :=
  let args := arguments
  let args :=
    if name == "get_observations" then
      let hasRangeParams :=
        truthyOpt (dictGet args "date_range_start") ||
        truthyOpt (dictGet args "date_range_end")
      let dateIsRange :=
        match dictGet args "date" with
        | some (JsonV.str s) => s == "range"
        | _ => false
      let args :=
        if hasRangeParams && !dateIsRange then
          dictSet args "date" (JsonV.str "range")
        else args
      let args :=
        if !(hasKey args "date") then dictSet args "date" (JsonV.str "latest")
        else args
      args.filter keepNonNull
    else args
  if name == "search_indicators" then
    match dictGet args "places" with
    | some (JsonV.str s) => dictSet args "places" (JsonV.arr [JsonV.str s])
    | _ => args
  else args

/-! ### String helpers: lowercase and substring search (Python `in`) -/

/-- Character-level lowercasing, modelling Python `str.lower` on the ASCII
range used by the proxy. -/
def strLower (s : String) : String :=
  String.mk (s.data.map Char.toLower)

/-- Does `pat` occur as a prefix of `s` (on character lists)? -/
def hasPrefixL : List Char → List Char → Bool
  | [], _ => true
  | _ :: _, [] => false
  | p :: ps, c :: cs => p == c && hasPrefixL ps cs

/-- Does `pat` occur as a contiguous substring of `s` (on character lists)? -/
def hasInfixL (pat : List Char) : List Char → Bool
  | [] => pat.isEmpty
  | c :: cs => hasPrefixL pat (c :: cs) || hasInfixL pat cs

/-- Python `pat in s` for strings. -/
def containsStr (s pat : String) : Bool :=
  hasInfixL pat.data s.data

/-- Python `s[:n]` on strings (character slicing). -/
def strTake (s : String) (n : Nat) : String :=
  String.mk (s.data.take n)

/-- Python whitespace (`\s`, `str.strip`) on the character sets arising
here. -/
def isPyWs (c : Char) : Bool :=
  c == ' ' || c == '\t' || c == '\n' || c == '\r' || c == '\x0b' || c == '\x0c'

/-- Python `str.strip()`: drop leading and trailing whitespace. -/
def stripWs (l : List Char) : List Char :=
  ((l.dropWhile isPyWs).reverse.dropWhile isPyWs).reverse

/-! ### Thinking-budget mapping -/

/-- `digitsVal ds` parses a non-empty all-digit character list. -/
def digitsVal : List Char → Option Nat
  | [] => none
  | [c] => if c.isDigit then some (c.toNat - 48) else none
  | c :: cs =>
    if c.isDigit then
      match digitsVal cs with
      | some n => some ((c.toNat - 48) * 10 ^ cs.length + n)
      | none => none
    else none

/-- Python `int(s)` for ordinary decimal literals: surrounding whitespace
stripped, an optional sign, then decimal digits; anything else raises
`ValueError` (modelled as `none`). -/
def pythonInt (s : String) : Option Int :=
  match stripWs s.data with
  | '+' :: rest => (digitsVal rest).map Int.ofNat
  | '-' :: rest => (digitsVal rest).map (fun n => -(n : Int))
  | l => (digitsVal l).map Int.ofNat

/-- The `thinkingConfig` dict built by `build_thinking_config`. -/
structure ThinkingConfig where
  thinkingBudget : Int
deriving DecidableEq

/-- `build_thinking_config` (lines 702-724): symbolic levels map to fixed
budgets; a numeric literal is clamped into `[0, 24576]`; an unparseable
value defaults to the `low` budget 1024. -/
def buildThinkingConfig (thinkingValue : String) : ThinkingConfig :=
  if thinkingValue == "minimal" then ⟨128⟩
  else if thinkingValue == "low" then ⟨1024⟩
  else if thinkingValue == "medium" then ⟨8192⟩
  else if thinkingValue == "high" then ⟨24576⟩
  else
    match pythonInt thinkingValue with
    | some n => ⟨max 0 (min 24576 n)⟩
    | none => ⟨1024⟩

/-! ### Credential-rotation gateway (`gemini_request`, lines 727-892) -/

/-- What one HTTP attempt against one API key produced: an HTTP response
with a status code and (already decoded) body, or a request-level
exception (timeout, connection error, body-decode failure) whose recorded
cause string is carried.  The shuffled key pool yields one outcome per
key, in the order the keys are tried. -/
inductive CallOutcome (α : Type) where
  | resp (status : Nat) (body : α)
  | exn (cause : String)

/-- The gateway's return value: a passed-through decoded response body, or
a gateway-generated `{"error": msg}` dict. -/
inductive GeminiResult (α : Type) where
  | ok (body : α)
  | error (msg : String)

/-- Did the gateway return its own error dict? -/
def GeminiResult.isErr {α : Type} : GeminiResult α → Bool
  | .ok _ => false
  | .error _ => true

/-- Is this attempt outcome one the rotation loop retries past: HTTP 429,
HTTP 500/503, or a request-level exception? -/
def retryable {α : Type} : CallOutcome α → Bool
  | .resp s _ => s == 429 || s == 500 || s == 503
  | .exn _ => true

/-- The `last_error` cause string the source records for a retried attempt. -/
def causeOf {α : Type} : CallOutcome α → String
  | .resp 429 _ => "Rate limited (429)"
  | .resp s _ => "Server error (" ++ toString s ++ ")"
  | .exn c => c

/-- Python `str(last_error)` where `last_error` starts as `None`. -/
def lastErrorStr : Option String → String
  | none => "None"
  | some c => c

/-- The aggregate message `All {n} API keys failed. Last error: {cause}`
of line 888. -/
def allKeysFailedMsg (n : Nat) (lastError : Option String) : String :=
  "All " ++ toString n ++ " API keys failed. Last error: " ++
    lastErrorStr lastError

/-- The per-key retry loop of `gemini_request`: try each key's outcome in
order, continuing past retryable ones while recording the cause; the first
non-retryable response wins; after exhausting the pool, return the
aggregate error naming the pool size `n` and the last observed cause. -/
def geminiRotate {α : Type} (n : Nat) :
    List (CallOutcome α) → Option String → GeminiResult α
  | [], lastError => .error (allKeysFailedMsg n lastError)
  | o :: rest, _lastError =>
    if retryable o then geminiRotate n rest (some (causeOf o))
    else
      match o with
      | .resp _ body => .ok body
      | .exn c => geminiRotate n rest (some c)

/-- `gemini_request` with the external HTTP world parametrised by the list
of per-key attempt outcomes (one per key of the shuffled pool): an empty
pool fails immediately with the configuration error, otherwise the
rotation loop runs over the whole pool. -/
def geminiRequest {α : Type} (outcomes : List (CallOutcome α)) : GeminiResult α :=
  if outcomes.isEmpty then
    .error "No Gemini API keys configured in config.json"
  else geminiRotate outcomes.length outcomes none

/-! ### MCP transport client (`mcp_request`, lines 325-413) -/

/-- The MCP server URL, `http://localhost:{MCP_PORT}/mcp` with the default
port 3000. -/
def MCP_URL : String := "http://localhost:3000/mcp"

/-- One line of an event-stream response, after the `data: ` framing and
JSON-decoding steps: a line not carrying a frame (no `data: ` prefix, or
empty), a frame whose payload fails to parse as JSON, or a successfully
parsed JSON-object frame (JSON-RPC frames are objects). -/
inductive SSELine where
  | other
  | badJson
  | frame (fields : List (String × JsonV))

/-- The SSE scan of `mcp_request` (lines 391-406): walk the lines keeping
the most recent `result` payload; return at once on a frame carrying an
`error` key (and no `result` key); at the end wrap the kept `result` if it
is truthy, else report `No result`. -/
def scanSSE : List SSELine → Option JsonV → JsonV
  | [], acc =>
    match acc with
    | some v =>
      if truthy v then .obj [("result", v)] else .obj [("error", .str "No result")]
    | none => .obj [("error", .str "No result")]
  | l :: rest, acc =>
    match l with
    | .frame fields =>
      match dictGet fields "result" with
      | some v => scanSSE rest (some v)
      | none =>
        match dictGet fields "error" with
        | some e => .obj [("error", e)]
        | none => scanSSE rest acc
    | _ => scanSSE rest acc

/-- What the underlying `requests.post` produced for one `mcp_request`
call: a refused connection, some other raised exception (carrying its
`str(e)`), an event-stream response, or a plain JSON response body. -/
inductive HttpOutcome where
  | connectionError
  | raised (msg : String)
  | sseResponse (lines : List SSELine)
  | jsonResponse (body : JsonV)

/-- `mcp_request` with the HTTP world parametrised by the call's outcome.
Notifications return `{"result": "notification sent"}` without inspecting
the response; connection refusal and other exceptions are converted to
error dicts; event streams are scanned; plain JSON bodies pass through. -/
def mcpRequest (_method : String) (_params : Option JsonV)
    (isNotification : Bool) (outcome : HttpOutcome) : JsonV :=
  match outcome with
  | .connectionError =>
    .obj [("error", .str ("Cannot connect to MCP server at " ++ MCP_URL ++
      ". Make sure it\x27s running!"))]
  | .raised msg => .obj [("error", .str msg)]
  | .sseResponse lines =>
    if isNotification then .obj [("result", .str "notification sent")]
    else scanSSE lines none
  | .jsonResponse body =>
    if isNotification then .obj [("result", .str "notification sent")]
    else body

/-- Is this value a dict carrying a `result` or an `error` key? -/
def isResultOrErrorDict : JsonV → Bool
  | .obj fields => (dictGet fields "result").isSome || (dictGet fields "error").isSome
  | _ => false

/-! ### `json.dumps` and Python `str` on JSON values -/

/-- One character of a `json.dumps` string literal, with the escapes
relevant here (backslash, quote, newline, tab, carriage return). -/
def escChar (c : Char) : String :=
  if c == '\\' then "\\\\"
  else if c == '"' then "\\\""
  else if c == '\n' then "\\n"
  else if c == '\t' then "\\t"
  else if c == '\r' then "\\r"
  else String.mk [c]

/-- The escaped body of a `json.dumps` string literal. -/
def jsonEscape (s : String) : String :=
  String.join (s.data.map escChar)

mutual

/-- `json.dumps` with its default separators (`", "` and `": "`). -/
def jsonDumps : JsonV → String
  | .null => "null"
  | .bool true => "true"
  | .bool false => "false"
  | .num n => toString n
  | .str s => "\"" ++ jsonEscape s ++ "\""
  | .arr xs => "[" ++ String.intercalate ", " (jsonDumpsList xs) ++ "]"
  | .obj fs => "\x7b" ++ String.intercalate ", " (jsonDumpsFields fs) ++ "\x7d"

/-- `json.dumps` of each element of a JSON array. -/
def jsonDumpsList : List JsonV → List String
  | [] => []
  | x :: xs => jsonDumps x :: jsonDumpsList xs

/-- `json.dumps` of each `"key": value` entry of a JSON object. -/
def jsonDumpsFields : List (String × JsonV) → List String
  | [] => []
  | (k, v) :: fs =>
    ("\"" ++ jsonEscape k ++ "\": " ++ jsonDumps v) :: jsonDumpsFields fs

end

mutual

/-- Python `repr` of a decoded JSON value (string escaping simplified to
plain single quoting, which is exact for the strings arising here). -/
def pyRepr : JsonV → String
  | .null => "None"
  | .bool true => "True"
  | .bool false => "False"
  | .num n => toString n
  | .str s => "\x27" ++ s ++ "\x27"
  | .arr xs => "[" ++ String.intercalate ", " (pyReprList xs) ++ "]"
  | .obj fs => "\x7b" ++ String.intercalate ", " (pyReprFields fs) ++ "\x7d"

/-- `repr` of each element of a list. -/
def pyReprList : List JsonV → List String
  | [] => []
  | x :: xs => pyRepr x :: pyReprList xs

/-- `repr` of each `key: value` entry of a dict. -/
def pyReprFields : List (String × JsonV) → List String
  | [] => []
  | (k, v) :: fs => (pyRepr (.str k) ++ ": " ++ pyRepr v) :: pyReprFields fs

end

/-- Python `str` of a decoded JSON value. -/
def pyStr : JsonV → String
  | .str s => s
  | v => pyRepr v

/-! ### Tool-calling loop (`execute_mcp_tool_loop`, lines 925-1071) -/

/-- `c.get("text", json.dumps(c))` for one element of a tool result's
`content` list; `none` models the `TypeError` Python raises from
`"\n".join` when a present `text` value is not a string, or from `.get`
on a non-dict element. -/
def contentItemText (c : JsonV) : Option String :=
  match c with
  | .obj fields =>
    match dictGet fields "text" with
    | some (.str s) => some s
    | some _ => none
    | none => some (jsonDumps c)
  | _ => none

/-- The loop's result stringification (lines 1039-1047): a dict with a
`content` list joins the items' texts with newlines; any other dict is
JSON-encoded; a non-dict goes through `str`.  `none` models an uncaught
`TypeError` inside the join. -/
def stringifyToolResult (result : JsonV) : Option String :=
  match result with
  | .obj fields =>
    match dictGet fields "content" with
    | some (.arr items) =>
      match items.mapM contentItemText with
      | some texts => some (String.intercalate "\n" texts)
      | none => none
    | _ => some (jsonDumps result)
  | v => some (pyStr v)

/-- One entry of `tool_calls_list`: the externally visible record of one
tool invocation. -/
structure ToolCallInfo where
  name : String
  arguments : ArgDict
  result : String
  status : String

/-- The record construction of lines 1049-1054: the stored result is the
first 500 characters plus an ellipsis when the stringified result exceeds
500 characters; the status is `error` when the lowercased stringified
result contains `error`. -/
def mkToolCallInfo (name : String) (args : ArgDict) (resultText : String) :
    ToolCallInfo where
  name := name
  arguments := args
  result :=
    if resultText.length > 500 then strTake resultText 500 ++ "..." else resultText
  status := if containsStr (strLower resultText) "error" then "error" else "success"

/-- `call_tool` (lines 481-511) with the MCP transport parametrised by
`toolRunner`, which yields the `mcp_request` response dict for a
`tools/call`: repair the arguments, then unwrap `result` or wrap the
reported error. -/
def callTool (toolRunner : String → ArgDict → List (String × JsonV))
    (name : String) (arguments : ArgDict) : JsonV :=
  let fixedArgs := fixToolArguments name arguments
  let response := toolRunner name fixedArgs
  match dictGet response "result" with
  | some v => v
  | none => .obj [("error", (dictGet response "error").getD (.str "Unknown error"))]

/-- One part of a Gemini-format message: a model-requested function call,
free text, or a fed-back function response. -/
inductive GPart where
  | functionCall (name : String) (args : ArgDict)
  | textPart (s : String)
  | functionResponse (name : String) (result : String)

/-- One role-tagged message of the conversation sent to the model. -/
structure Content where
  role : String
  parts : List GPart

/-- One candidate of a Gemini response, reduced to its content parts. -/
structure Candidate where
  contentParts : List GPart

/-- The decoded body of a non-streaming Gemini response. -/
structure GeminiBody where
  candidates : List Candidate

/-- The tuple `(tool_results_text, tool_calls_list, final_response_text)`
returned by the loop, together with the number of loop iterations (Gemini
calls) performed. -/
structure LoopOut where
  resultsText : String
  toolCalls : List ToolCallInfo
  finalText : String
  iterations : Nat

/-- `tool_results_text` as rebuilt from the (truncated) records on the
no-function-call exit (lines 1015-1018). -/
def toolResultsFromCalls (tcs : List ToolCallInfo) : String :=
  String.intercalate "\n\n"
    (tcs.map (fun tc => "Tool: " ++ tc.name ++ "\nResult: " ++ tc.result))

/-- Execute the requested function calls of one iteration (lines
1031-1063), producing the new records, the untruncated `all_tool_results`
strings, and the function-response parts to feed back; `Except.error`
models an uncaught Python exception during stringification. -/
def runFunctionCalls (toolRunner : String → ArgDict → List (String × JsonV)) :
    List (String × ArgDict) →
    Except String (List ToolCallInfo × List String × List GPart)
  | [] => .ok ([], [], [])
  | (name, args) :: rest =>
    let result := callTool toolRunner name args
    match stringifyToolResult result with
    | none => .error "TypeError"
    | some resultText =>
      match runFunctionCalls toolRunner rest with
      | .error e => .error e
      | .ok (calls, results, parts) =>
        .ok (mkToolCallInfo name args resultText :: calls,
          ("Tool: " ++ name ++ "\nResult: " ++ resultText) :: results,
          GPart.functionResponse name resultText :: parts)

/-- The iteration body of `execute_mcp_tool_loop`, with the remaining
iteration budget as fuel.  Exhausted fuel is the `Max tool iterations
reached` exit; a Gemini error, an empty candidate set, and a response
without function calls are the early exits of lines 988-1025. -/
def execMcpToolLoopGo (modelFn : List Content → GeminiResult GeminiBody)
    (toolRunner : String → ArgDict → List (String × JsonV)) :
    Nat → List Content → List ToolCallInfo → List String → Nat →
    Except String LoopOut
  | 0, _, toolCalls, allResults, iters =>
    .ok ⟨String.intercalate "\n\n" allResults, toolCalls,
      "Max tool iterations reached", iters⟩
  | fuel + 1, contents, toolCalls, allResults, iters =>
    match modelFn contents with
    | .error msg => .ok ⟨"", toolCalls, "Error: " ++ msg, iters + 1⟩
    | .ok body =>
      match body.candidates with
      | [] => .ok ⟨"", toolCalls, "No response from model", iters + 1⟩
      | cand :: _ =>
        let parts := cand.contentParts
        let fcs := parts.filterMap
          (fun p => match p with | .functionCall n a => some (n, a) | _ => none)
        let textResponse := String.join (parts.filterMap
          (fun p => match p with | .textPart s => some s | _ => none))
        if fcs.isEmpty then
          .ok ⟨toolResultsFromCalls toolCalls, toolCalls, textResponse, iters + 1⟩
        else
          match runFunctionCalls toolRunner fcs with
          | .error e => .error e
          | .ok (newCalls, newResults, fresps) =>
            execMcpToolLoopGo modelFn toolRunner fuel
              (contents ++ [⟨"model", parts⟩, ⟨"user", fresps⟩])
              (toolCalls ++ newCalls) (allResults ++ newResults) (iters + 1)

/-- `execute_mcp_tool_loop` with the Gemini gateway parametrised by
`modelFn` (the result of `gemini_request` on given conversation contents)
and the MCP transport by `toolRunner`.  The caller-supplied history is
deliberately not included in the conversation (lines 963-966); when no
tools are available the loop exits at once (lines 950-954). -/
def execMcpToolLoop (modelFn : List Content → GeminiResult GeminiBody)
    (toolRunner : String → ArgDict → List (String × JsonV))
    (toolsAvailable : Bool) (userMessage : String) (_history : List Content)
    (maxIterations : Nat) : Except String LoopOut :=
  if !toolsAvailable then .ok ⟨"", [], "MCP tools not available", 0⟩
  else
    execMcpToolLoopGo modelFn toolRunner maxIterations
      [⟨"user", [GPart.textPart userMessage]⟩] [] [] 0

/-! ### Data-availability classifier (`check_data_availability`, lines 514-600) -/

/-- Drop a leading run of whitespace (the maximal-munch reading of `\s*`
followed by a non-whitespace literal, which is exact for existence). -/
def skipWs : List Char → List Char
  | [] => []
  | c :: cs => if isPyWs c then skipWs cs else c :: cs

/-- Consume `pat` as a prefix, returning the remainder. -/
def dropPrefixL : List Char → List Char → Option (List Char)
  | [], s => some s
  | _ :: _, [] => none
  | p :: ps, c :: cs => if p == c then dropPrefixL ps cs else none

/-- Does `re.search(r'"time_series":\s*\[\s*\[', s)` match at this exact
position: the literal `"time_series":`, optional whitespace, `[`,
optional whitespace, `[`. -/
def hasTimeSeriesAt (l : List Char) : Bool :=
  match dropPrefixL "\"time_series\":".data l with
  | none => false
  | some r =>
    match skipWs r with
    | '[' :: r2 =>
      match skipWs r2 with
      | '[' :: _ => true
      | _ => false
    | _ => false

/-- Does the time-series pattern match anywhere in the character list? -/
def searchTimeSeriesL : List Char → Bool
  | [] => hasTimeSeriesAt []
  | l@(_ :: rest) => hasTimeSeriesAt l || searchTimeSeriesL rest

/-- `re.search(r'"time_series":\s*\[\s*\[', s)` as a Boolean: a populated
time-series array opens somewhere in `s`. -/
def hasTimeSeriesData (s : String) : Bool :=
  searchTimeSeriesL s.data

/-- The scan state of `check_data_availability` over the tool-call list. -/
structure AvailFlags where
  noVariables : Bool
  hasAnyObservations : Bool
  allObservationsEmpty : Bool
  searchCalled : Bool
  observationsCalled : Bool

/-- The flag values before any tool call is inspected. -/
def initAvailFlags : AvailFlags :=
  ⟨false, false, true, false, false⟩

/-- The empty-match phrasing test applied to a `search_indicators` result
(lines 538-543), on the lowercased result text. -/
def searchEmptyFlag (resultStr : String) : Bool :=
  let resultLower := strLower resultStr
  containsStr resultLower "no indicators found" ||
  containsStr resultLower "\"variables\": []" ||
  containsStr resultLower "no matching" ||
  containsStr resultLower "could not find" ||
  (containsStr resultLower "\"indicators\":" && containsStr resultLower "[]")

/-- The empty-result phrasing test applied to a `get_observations` result
(lines 565-569), on the lowercased result text. -/
def obsEmptyFlag (resultStr : String) : Bool :=
  let resultLower := strLower resultStr
  containsStr resultLower "no data" ||
  containsStr resultLower "\"observations\": []" ||
  containsStr resultLower "\"time_series\": []" ||
  containsStr resultLower "\"time_series\":[]" ||
  containsStr resultLower "no observations"

/-- One step of the classifier's scan (lines 530-571).  A
`search_indicators` record is tested for empty-match phrasing on this
record's lowercased result; a `get_observations` record is tested for the
populated time-series pattern on the raw result and for empty-result
phrasing on the lowercased result.  (The source's additional `source_id`
conjunct only re-sets flags already set by the time-series test it also
requires, so it changes no flag and is omitted.) -/
def availStep (fl : AvailFlags) (tc : ToolCallInfo) : AvailFlags :=
  if tc.name == "search_indicators" then
    { fl with
        searchCalled := true
        noVariables := fl.noVariables || searchEmptyFlag tc.result }
  else if tc.name == "get_observations" then
    let hasDataPattern := hasTimeSeriesData tc.result
    { fl with
        observationsCalled := true
        hasAnyObservations := fl.hasAnyObservations || hasDataPattern
        allObservationsEmpty :=
          fl.allObservationsEmpty && !hasDataPattern && obsEmptyFlag tc.result }
  else fl

/-- The classifier's return dict. -/
structure AvailResult where
  hasData : Bool
  noVariablesFound : Bool
  noObservationsFound : Bool
  searchCalled : Bool
  observationsCalled : Bool
  message : Option String

/-- `check_data_availability`: scan the tool-call records, then aggregate
(lines 574-600): data is absent when search found no variables, or every
observation call came back empty; otherwise present when some observation
showed a populated series. -/
def checkDataAvailability (toolCallsList : List ToolCallInfo) : AvailResult :=
  let fl := toolCallsList.foldl availStep initAvailFlags
  let hasData :=
    if fl.searchCalled && fl.noVariables then false
    else if fl.observationsCalled && fl.allObservationsEmpty &&
        !fl.hasAnyObservations then false
    else fl.hasAnyObservations || (fl.observationsCalled && !fl.allObservationsEmpty)
  let message : Option String :=
    if hasData then none
    else if fl.noVariables then
      some "We didn\x27t find any matching data variables for your query."
    else if fl.observationsCalled && fl.allObservationsEmpty then
      some "We found the data variable but there are no observations available."
    else some "We didn\x27t find data for your query."
  ⟨hasData, fl.noVariables, fl.allObservationsEmpty, fl.searchCalled,
    fl.observationsCalled, message⟩

/-! ### Knowledge-base query and the chat-stream override gating
(`execute_kb_query`, lines 1074-1214; `chat_stream`, lines 1273-1419) -/

/-- The configuration fields relevant to the knowledge-base phase, as
loaded from `config.json` by `load_config`. -/
structure AppConfig where
  kbEnabled : Bool
  storeId : String
  apiKeys : List String
  queryParamKey : String

/-- The authenticated query-parameter overrides of `chat_stream` that
matter here (`kb` toggling the knowledge base). -/
structure QueryOverrides where
  kbParam : Option String := none

/-- `apply_query_overrides` restricted to the knowledge-base toggle
(lines 142-171): a present, non-empty `kb` parameter sets the effective
`knowledge_base.enabled` to whether it lowercases to `true`. -/
def applyQueryOverrides (config : AppConfig) (q : QueryOverrides) : AppConfig :=
  match q.kbParam with
  | some v => if v == "" then config else { config with kbEnabled := strLower v == "true" }
  | none => config

/-- One grounding chunk of a knowledge-base response: `none` models a
chunk whose `retrievedContext` is absent or empty (falsy); otherwise the
optional `title` and `uri` fields of the retrieved context. -/
abbrev KbChunk := Option (Option String × Option String)

/-- One candidate of a knowledge-base response: the optional `text` of
each part, and the grounding chunks. -/
structure KbCandidate where
  partTexts : List (Option String)
  groundingChunks : List KbChunk

/-- The decoded body of a knowledge-base Gemini response. -/
structure KbBody where
  candidates : List KbCandidate

/-- The `{response, sources}` dict returned by `execute_kb_query`;
sources are `(title, uri)` pairs. -/
structure KbResult where
  response : String
  sources : List (String × String)

/-- The citation extraction of lines 1176-1188: keep each chunk's
title/uri (defaulting to `Unknown` and the empty string), deduplicated by
title with the first occurrence winning, insertion order preserved. -/
def dedupSources : List KbChunk → List String → List (String × String)
  | [], _ => []
  | none :: rest, seen => dedupSources rest seen
  | some (t, u) :: rest, seen =>
    let title := t.getD "Unknown"
    let uri := u.getD ""
    if seen.contains title then dedupSources rest seen
    else (title, uri) :: dedupSources rest (title :: seen)

/-- Decode one successful knowledge-base response body (lines 1163-1188):
concatenate the first candidate's part texts and extract the deduplicated
sources. -/
def parseKbBody (body : KbBody) : String × List (String × String) :=
  match body.candidates with
  | [] => ("", [])
  | cand :: _ =>
    (String.join (cand.partTexts.map (fun t => t.getD "")),
      dedupSources cand.groundingChunks [])

/-- The per-key retry loop of `execute_kb_query` (lines 1128-1214), with
one attempt outcome per shuffled key; the second component counts the
HTTP calls actually made.  Rate limits (429), transient server errors
(500/503) and exceptions move to the next key; pool exhaustion yields the
empty result. -/
def kbRotate : List (CallOutcome KbBody) → KbResult × Nat
  | [] => (⟨"", []⟩, 0)
  | o :: rest =>
    if retryable o then
      let (r, n) := kbRotate rest
      (r, n + 1)
    else
      match o with
      | .resp _ body =>
        let (text, sources) := parseKbBody body
        (⟨text, sources⟩, 1)
      | .exn _ =>
        let (r, n) := kbRotate rest
        (r, n + 1)

/-- `execute_kb_query` with the HTTP world parametrised by the per-key
attempt outcomes.  It reloads the BASE configuration itself (line 1082:
`config = load_config()`): the phase no-ops with the empty result — and
zero HTTP calls — when that base configuration disables the capability,
when no store identifier is configured, or when no keys exist. -/
def executeKbQuery (baseConfig : AppConfig) (outcomes : List (CallOutcome KbBody)) :
    KbResult × Nat :=
  if !baseConfig.kbEnabled then (⟨"", []⟩, 0)
  else if baseConfig.storeId == "" then (⟨"", []⟩, 0)
  else if baseConfig.apiKeys.isEmpty then (⟨"", []⟩, 0)
  else kbRotate outcomes

/-- The knowledge-base phase of `chat_stream` (lines 1308-1327 and
1406-1419): overrides are honoured only when the supplied secret matches
the configured key; the phase runs exactly when the EFFECTIVE
(override-applied) configuration enables the capability — but the query
itself is `execute_kb_query`, which consults the BASE configuration.
`none` means the phase was skipped entirely. -/
def chatStreamKbPhase (baseConfig : AppConfig) (secretKey : String)
    (kbParam : Option String) (outcomes : List (CallOutcome KbBody)) :
    Option (KbResult × Nat) :=
  let overrides : QueryOverrides :=
    if secretKey == baseConfig.queryParamKey then ⟨kbParam⟩ else ⟨none⟩
  let effectiveConfig := applyQueryOverrides baseConfig overrides
  if effectiveConfig.kbEnabled then some (executeKbQuery baseConfig outcomes)
  else none

/-! ### Dictionary lemmas -/

theorem keepNonNull_of_ne_null {v : JsonV} (h : v ≠ JsonV.null) (k : String) :
    keepNonNull (k, v) = true := by
  cases v <;> simp_all [keepNonNull]

theorem ne_null_of_keepNonNull {v : JsonV} {k : String}
    (h : keepNonNull (k, v) = true) : v ≠ JsonV.null := by
  cases v <;> simp_all [keepNonNull]

theorem dictGet_setMap (d : ArgDict) (k : String) (v : JsonV)
    (h : hasKey d k = true) :
    dictGet (d.map (fun p => if p.1 = k then (k, v) else p)) k = some v := by
  induction d with
  | nil => simp [hasKey] at h
  | cons p rest ih =>
    rcases p with ⟨pk, pv⟩
    by_cases hp : pk = k
    · rw [List.map_cons]
      simp only [hp, if_pos rfl]
      simp [dictGet]
    · rw [List.map_cons]
      simp only [if_neg hp]
      have h' : hasKey rest k = true := by
        simpa [hasKey, if_neg hp] using h
      simpa [dictGet, if_neg hp] using ih h'

theorem dictGet_append_right (d : ArgDict) (k : String) (v : JsonV)
    (h : hasKey d k = false) :
    dictGet (d ++ [(k, v)]) k = some v := by
  induction d with
  | nil => simp [dictGet]
  | cons p rest ih =>
    rcases p with ⟨pk, pv⟩
    by_cases hp : pk = k
    · simp [hasKey, hp] at h
    · have h' : hasKey rest k = false := by
        simpa [hasKey, if_neg hp] using h
      simpa [dictGet, if_neg hp] using ih h'

theorem dictGet_dictSet_self (d : ArgDict) (k : String) (v : JsonV) :
    dictGet (dictSet d k v) k = some v := by
  unfold dictSet
  by_cases h : hasKey d k = true
  · rw [if_pos h]
    exact dictGet_setMap d k v h
  · rw [if_neg h]
    exact dictGet_append_right d k v (by simpa using h)

theorem hasKey_setMap (d : ArgDict) (k : String) (v : JsonV)
    (h : hasKey d k = true) :
    hasKey (d.map (fun p => if p.1 = k then (k, v) else p)) k = true := by
  induction d with
  | nil => simp [hasKey] at h
  | cons p rest ih =>
    rcases p with ⟨pk, pv⟩
    by_cases hp : pk = k
    · rw [List.map_cons]
      simp only [hp, if_pos rfl]
      simp [hasKey]
    · rw [List.map_cons]
      simp only [if_neg hp]
      have h' : hasKey rest k = true := by
        simpa [hasKey, if_neg hp] using h
      simpa [hasKey, if_neg hp] using ih h'

theorem hasKey_append_right (d : ArgDict) (k : String) (v : JsonV) :
    hasKey (d ++ [(k, v)]) k = true := by
  induction d with
  | nil => simp [hasKey]
  | cons p rest ih =>
    rcases p with ⟨pk, pv⟩
    by_cases hp : pk = k
    · simp [hasKey, hp]
    · simpa [hasKey, if_neg hp] using ih

theorem hasKey_dictSet_self (d : ArgDict) (k : String) (v : JsonV) :
    hasKey (dictSet d k v) k = true := by
  unfold dictSet
  by_cases h : hasKey d k = true
  · rw [if_pos h]
    exact hasKey_setMap d k v h
  · rw [if_neg h]
    exact hasKey_append_right d k v

theorem dictGet_filter_keep (d : ArgDict) (k : String) (v : JsonV)
    (hv : v ≠ JsonV.null) (h : dictGet d k = some v) :
    dictGet (d.filter keepNonNull) k = some v := by
  induction d with
  | nil => simp [dictGet] at h
  | cons p rest ih =>
    rcases p with ⟨pk, pv⟩
    by_cases hp : pk = k
    · have hpv : pv = v := by
        simpa [dictGet, hp] using h
      have hkeep : keepNonNull (pk, pv) = true := by
        rw [hpv]
        exact keepNonNull_of_ne_null hv pk
      rw [List.filter_cons_of_pos hkeep]
      simp [dictGet, hp, hpv]
    · have h' : dictGet rest k = some v := by
        simpa [dictGet, if_neg hp] using h
      by_cases hkeep : keepNonNull (pk, pv) = true
      · rw [List.filter_cons_of_pos hkeep]
        simpa [dictGet, if_neg hp] using ih h'
      · rw [List.filter_cons_of_neg (by simpa using hkeep)]
        exact ih h'

theorem dictGet_filter_ne_null (d : ArgDict) (k : String) (v : JsonV)
    (h : dictGet (d.filter keepNonNull) k = some v) : v ≠ JsonV.null := by
  induction d with
  | nil => simp [dictGet] at h
  | cons p rest ih =>
    rcases p with ⟨pk, pv⟩
    by_cases hkeep : keepNonNull (pk, pv) = true
    · rw [List.filter_cons_of_pos hkeep] at h
      by_cases hp : pk = k
      · have hpv : pv = v := by
          simpa [dictGet, hp] using h
        cases hpv
        exact ne_null_of_keepNonNull hkeep
      · exact ih (by simpa [dictGet, if_neg hp] using h)
    · rw [List.filter_cons_of_neg (by simpa using hkeep)] at h
      exact ih h

/-! ### Claim theorems -/

theorem dateIsRange_eq_false {args : ArgDict}
    (h : dictGet args "date" ≠ some (JsonV.str "range")) :
    (match dictGet args "date" with
     | some (JsonV.str s) => s == "range"
     | _ => false) = false := by
  cases hd : dictGet args "date" with
  | none => rfl
  | some v =>
    cases v with
    | str s =>
      by_cases hs : s = "range"
      · exact absurd (by rw [hd, hs]) h
      · simpa using hs
    | null => rfl
    | bool b => rfl
    | num n => rfl
    | arr xs => rfl
    | obj fs => rfl

/-- C7: the thinking-budget mapping sends `minimal`, `low`, `medium`,
`high` to 128, 1024, 8192, 24576; any other string parseable as an
integer is clamped into `[0, 24576]`; an unparseable string defaults to
the low budget 1024. -/
theorem thinking_budget_mapping :
    (buildThinkingConfig "minimal").thinkingBudget = 128 ∧
    (buildThinkingConfig "low").thinkingBudget = 1024 ∧
    (buildThinkingConfig "medium").thinkingBudget = 8192 ∧
    (buildThinkingConfig "high").thinkingBudget = 24576 ∧
    (∀ (s : String) (n : Int), s ≠ "minimal" → s ≠ "low" → s ≠ "medium" →
      s ≠ "high" → pythonInt s = some n →
      (buildThinkingConfig s).thinkingBudget = max 0 (min 24576 n)) ∧
    (∀ (s : String), s ≠ "minimal" → s ≠ "low" → s ≠ "medium" →
      s ≠ "high" → pythonInt s = none →
      (buildThinkingConfig s).thinkingBudget = 1024) := by
  refine ⟨rfl, rfl, rfl, rfl, ?_, ?_⟩
  · intro s n h1 h2 h3 h4 hp
    simp [buildThinkingConfig, h1, h2, h3, h4, hp]
  · intro s h1 h2 h3 h4 hp
    simp [buildThinkingConfig, h1, h2, h3, h4, hp]

/-- Witness for C7: the numeric string `99999` is clamped to 24576 and
the unparseable string `abc` falls back to 1024. -/
theorem thinking_budget_mapping_witness :
    (buildThinkingConfig "99999").thinkingBudget = 24576 ∧
    (buildThinkingConfig "abc").thinkingBudget = 1024 := by
  constructor
  · have h := thinking_budget_mapping.2.2.2.2.1 "99999" 99999
      (by decide) (by decide) (by decide) (by decide) (by rfl)
    simpa using h
  · exact thinking_budget_mapping.2.2.2.2.2 "abc"
      (by decide) (by decide) (by decide) (by decide) (by rfl)

/-- C10: the argument normalizer is the identity for every tool other
than `get_observations` and `search_indicators` (and, operating on a copy
of its input, never mutates the caller's dictionary — immediate in this
pure embedding). -/
theorem fix_tool_arguments_identity (name : String) (args : ArgDict)
    (h1 : name ≠ "get_observations") (h2 : name ≠ "search_indicators") :
    fixToolArguments name args = args := by
  simp [fixToolArguments, h1, h2]

/-- Witness for C10: a `get_weather` argument dict passes through
unchanged. -/
theorem fix_tool_arguments_identity_witness :
    fixToolArguments "get_weather" [("units", JsonV.str "metric")] =
      [("units", JsonV.str "metric")] :=
  fix_tool_arguments_identity "get_weather" _ (by decide) (by decide)

/-- Counterexample to C4 as stated: for a tool other than
`get_observations` the normalizer keeps null-valued keys (and applies no
`date` rule), so quantifying the claim over every tool name fails. -/
theorem fix_arguments_null_passthrough :
    dictGet (fixToolArguments "other_tool" [("x", JsonV.null)]) "x" =
      some JsonV.null := by
  rfl

/-- C4 (amended): for the `get_observations` tool: a truthy
`date_range_start`/`date_range_end` with `date` not the string `range`
forces `date = "range"`; an absent `date` with no truthy range parameter
defaults to `date = "latest"`; and the output never binds a key to null. -/
theorem fix_arguments_date_rules (args : ArgDict) :
    ((truthyOpt (dictGet args "date_range_start") ||
        truthyOpt (dictGet args "date_range_end")) = true →
      dictGet args "date" ≠ some (JsonV.str "range") →
      dictGet (fixToolArguments "get_observations" args) "date" =
        some (JsonV.str "range")) ∧
    ((truthyOpt (dictGet args "date_range_start") ||
        truthyOpt (dictGet args "date_range_end")) = false →
      hasKey args "date" = false →
      dictGet (fixToolArguments "get_observations" args) "date" =
        some (JsonV.str "latest")) ∧
    (∀ (k : String) (v : JsonV),
      dictGet (fixToolArguments "get_observations" args) k = some v →
      v ≠ JsonV.null) := by
  refine ⟨?_, ?_, ?_⟩
  · intro hR hD
    have hDIR := dateIsRange_eq_false hD
    simp only [fixToolArguments, hR, hDIR]
    simp only [Bool.not_false, Bool.true_and, if_true]
    rw [hasKey_dictSet_self]
    simp only [Bool.not_true, Bool.false_eq_true, if_false]
    have hni : (("get_observations" : String) == "search_indicators") = false := by
      decide
    simp only [hni, Bool.false_eq_true, if_false]
    exact dictGet_filter_keep _ _ _ (by simp)
      (dictGet_dictSet_self args "date" (JsonV.str "range"))
  · intro hR hA
    simp only [fixToolArguments, hR]
    simp only [Bool.false_and, Bool.false_eq_true, if_false]
    rw [hA]
    simp only [Bool.not_false, if_true]
    have hni : (("get_observations" : String) == "search_indicators") = false := by
      decide
    simp only [hni, Bool.false_eq_true, if_false]
    exact dictGet_filter_keep _ _ _ (by simp)
      (dictGet_dictSet_self args "date" (JsonV.str "latest"))
  · intro k v hkv
    have hni : (("get_observations" : String) == "search_indicators") = false := by
      decide
    simp only [fixToolArguments, hni, Bool.false_eq_true, if_false] at hkv
    set args1 := if (truthyOpt (dictGet args "date_range_start") ||
        truthyOpt (dictGet args "date_range_end")) &&
        !(match dictGet args "date" with
          | some (JsonV.str s) => s == "range"
          | _ => false) then dictSet args "date" (JsonV.str "range") else args
      with hargs1
    set args2 := if !(hasKey args1 "date") then
        dictSet args1 "date" (JsonV.str "latest") else args1 with hargs2
    exact dictGet_filter_ne_null args2 k v hkv

/-- Witness for C4 (amended): truthy range parameters force
`date = "range"`; with nothing range-like, `date` defaults to `latest`;
a null-valued key of a `get_observations` call is stripped. -/
theorem fix_arguments_date_rules_witness :
    dictGet (fixToolArguments "get_observations"
        [("date_range_start", JsonV.str "2020")]) "date" =
      some (JsonV.str "range") ∧
    dictGet (fixToolArguments "get_observations"
        [("variable", JsonV.str "Count_Person")]) "date" =
      some (JsonV.str "latest") ∧
    JsonV.str "x" ≠ JsonV.null := by
  refine ⟨?_, ?_, ?_⟩
  · exact (fix_arguments_date_rules _).1 (by rfl) (by intro h; cases h)
  · exact (fix_arguments_date_rules _).2.1 (by rfl) (by rfl)
  · exact (fix_arguments_date_rules
        [("variable", JsonV.str "x"), ("note", JsonV.str "x")]).2.2 "variable"
      (JsonV.str "x") (by rfl)

/-! ### Transport-client theorems (C3, C5) -/

/-- Is this SSE line a parsed frame carrying a `result` key? -/
def isResultFrame : SSELine → Bool
  | .frame fields => (dictGet fields "result").isSome
  | _ => false

theorem scanSSE_append_result (pre : List SSELine) (v : JsonV)
    (acc : Option JsonV) (hpre : ∀ l ∈ pre, isResultFrame l = true)
    (hv : truthy v = true) :
    scanSSE (pre ++ [SSELine.frame [("result", v)]]) acc =
      JsonV.obj [("result", v)] := by
  induction pre generalizing acc with
  | nil =>
    simp only [List.nil_append, scanSSE, dictGet, if_pos rfl, hv, if_true]
  | cons l rest ih =>
    have hl : isResultFrame l = true := hpre l (by simp)
    have hrest : ∀ l' ∈ rest, isResultFrame l' = true := by
      intro l' hm
      exact hpre l' (by simp [hm])
    cases l with
    | frame fields =>
      rcases ho : dictGet fields "result" with _ | w
      · simp [isResultFrame, ho] at hl
      · simp only [List.cons_append, scanSSE, ho]
        exact ih _ hrest
    | other => simp [isResultFrame] at hl
    | badJson => simp [isResultFrame] at hl

/-- Counterexample to C3 as stated: a stream with two `result` frames
`A` then `B` yields the value of the LAST frame, not the first. -/
theorem sse_first_frame_counterexample :
    mcpRequest "tools/call" none false (HttpOutcome.sseResponse
      [SSELine.frame [("result", JsonV.str "A")],
       SSELine.frame [("result", JsonV.str "B")]]) =
      JsonV.obj [("result", JsonV.str "B")] ∧
    JsonV.str "B" ≠ JsonV.str "A" := by
  constructor
  · rfl
  · intro h
    injection h with h'
    exact absurd h' (by decide)

/-- C3 (amended): on an event-stream response the transport client
returns the value of the LAST `data: `-framed JSON frame containing a
`result` key (wrapped as a result dict when truthy), and returns
immediately on a frame with an `error` key and no `result` key. -/
theorem sse_scan_rules :
    (∀ (method : String) (params : Option JsonV)
       (fields : List (String × JsonV)) (e : JsonV) (rest : List SSELine),
      dictGet fields "result" = none → dictGet fields "error" = some e →
      mcpRequest method params false
          (HttpOutcome.sseResponse (SSELine.frame fields :: rest)) =
        JsonV.obj [("error", e)]) ∧
    (∀ (method : String) (params : Option JsonV) (pre : List SSELine)
       (v : JsonV),
      (∀ l ∈ pre, isResultFrame l = true) → truthy v = true →
      mcpRequest method params false
          (HttpOutcome.sseResponse (pre ++ [SSELine.frame [("result", v)]])) =
        JsonV.obj [("result", v)]) := by
  constructor
  · intro method params fields e rest h1 h2
    simp only [mcpRequest, Bool.false_eq_true, if_false, scanSSE, h1, h2]
  · intro method params pre v hpre hv
    simp only [mcpRequest, Bool.false_eq_true, if_false]
    exact scanSSE_append_result pre v none hpre hv

/-- Witness for C3 (amended): a result frame prefixed by a status frame
as well as an error frame before any data. -/
theorem sse_scan_rules_witness :
    mcpRequest "tools/call" none false (HttpOutcome.sseResponse
        [SSELine.frame [("error", JsonV.str "boom")],
         SSELine.frame [("result", JsonV.str "late")]]) =
      JsonV.obj [("error", JsonV.str "boom")] ∧
    mcpRequest "tools/call" none false (HttpOutcome.sseResponse
        [SSELine.frame [("result", JsonV.str "A")],
         SSELine.frame [("result", JsonV.str "B")]]) =
      JsonV.obj [("result", JsonV.str "B")] := by
  constructor
  · exact sse_scan_rules.1 "tools/call" none [("error", JsonV.str "boom")]
      (JsonV.str "boom") [SSELine.frame [("result", JsonV.str "late")]]
      (by rfl) (by rfl)
  · exact sse_scan_rules.2 "tools/call" none
      [SSELine.frame [("result", JsonV.str "A")]] (JsonV.str "B")
      (by intro l hm; simp at hm; rw [hm]; rfl) (by rfl)

theorem scanSSE_result_or_error (lines : List SSELine) (acc : Option JsonV) :
    isResultOrErrorDict (scanSSE lines acc) = true := by
  induction lines generalizing acc with
  | nil =>
    cases acc with
    | none => rfl
    | some v =>
      by_cases hv : truthy v = true
      · simp [scanSSE, hv, isResultOrErrorDict, dictGet]
      · simp only [Bool.not_eq_true] at hv
        simp [scanSSE, hv, isResultOrErrorDict, dictGet]
  | cons l rest ih =>
    cases l with
    | frame fields =>
      rcases hr : dictGet fields "result" with _ | w
      · rcases he : dictGet fields "error" with _ | e
        · simpa only [scanSSE, hr, he] using ih acc
        · simp [scanSSE, hr, he, isResultOrErrorDict, dictGet]
      · simpa only [scanSSE, hr] using ih (some w)
    | other => simpa only [scanSSE] using ih acc
    | badJson => simpa only [scanSSE] using ih acc

/-- Counterexample to C5 as stated: a plain-JSON response body that is
not an object is passed through as-is, so the transport client does not
always return a result-or-error dictionary. -/
theorem mcp_request_nondict_counterexample :
    mcpRequest "tools/list" none false
        (HttpOutcome.jsonResponse (JsonV.num 42)) = JsonV.num 42 ∧
    isResultOrErrorDict (mcpRequest "tools/list" none false
        (HttpOutcome.jsonResponse (JsonV.num 42))) = false := by
  exact ⟨rfl, rfl⟩

/-- C5 (amended): the transport client always returns a value, never a
raised fault: connection refusal becomes the descriptive connectivity
error dict, any other exception becomes an error dict carrying its
message, an event-stream response always yields a result-or-error dict,
and a plain-JSON response yields its parsed body. -/
theorem mcp_request_error_values :
    (∀ (method : String) (params : Option JsonV) (isNotif : Bool),
      mcpRequest method params isNotif HttpOutcome.connectionError =
        JsonV.obj [("error", JsonV.str ("Cannot connect to MCP server at " ++
          MCP_URL ++ ". Make sure it\x27s running!"))]) ∧
    (∀ (method : String) (params : Option JsonV) (isNotif : Bool)
       (msg : String),
      mcpRequest method params isNotif (HttpOutcome.raised msg) =
        JsonV.obj [("error", JsonV.str msg)]) ∧
    (∀ (method : String) (params : Option JsonV) (lines : List SSELine),
      isResultOrErrorDict
        (mcpRequest method params false (HttpOutcome.sseResponse lines)) = true) ∧
    (∀ (method : String) (params : Option JsonV) (body : JsonV),
      mcpRequest method params false (HttpOutcome.jsonResponse body) = body) := by
  refine ⟨fun _ _ _ => rfl, fun _ _ _ _ => rfl, ?_, fun _ _ _ => rfl⟩
  intro method params lines
  simpa only [mcpRequest, Bool.false_eq_true, if_false]
    using scanSSE_result_or_error lines none

/-! ### Substring characterisations -/

theorem hasPrefixL_iff (p s : List Char) :
    hasPrefixL p s = true ↔ ∃ r, s = p ++ r := by
  induction p generalizing s with
  | nil => simp [hasPrefixL]
  | cons c cs ih =>
    cases s with
    | nil => simp [hasPrefixL]
    | cons d ds =>
      simp only [hasPrefixL, Bool.and_eq_true, beq_iff_eq]
      constructor
      · rintro ⟨rfl, h⟩
        obtain ⟨r, rfl⟩ := (ih ds).mp h
        exact ⟨r, rfl⟩
      · rintro ⟨r, hr⟩
        injection hr with h1 h2
        subst h1
        exact ⟨rfl, (ih ds).mpr ⟨r, h2⟩⟩

theorem hasInfixL_iff (p s : List Char) :
    hasInfixL p s = true ↔ ∃ a b, s = a ++ (p ++ b) := by
  induction s with
  | nil =>
    simp only [hasInfixL, List.isEmpty_iff]
    constructor
    · rintro rfl
      exact ⟨[], [], rfl⟩
    · rintro ⟨a, b, h⟩
      rcases List.append_eq_nil.mp h.symm with ⟨_, hpb⟩
      exact (List.append_eq_nil.mp hpb).1
  | cons d ds ih =>
    simp only [hasInfixL, Bool.or_eq_true]
    constructor
    · rintro (hpre | hinf)
      · obtain ⟨r, hr⟩ := (hasPrefixL_iff p (d :: ds)).mp hpre
        exact ⟨[], r, by simpa using hr⟩
      · obtain ⟨a, b, rfl⟩ := ih.mp hinf
        exact ⟨d :: a, b, rfl⟩
    · rintro ⟨a, b, hab⟩
      cases a with
      | nil =>
        left
        exact (hasPrefixL_iff p (d :: ds)).mpr ⟨b, by simpa using hab⟩
      | cons a0 as =>
        right
        injection hab with h1 h2
        exact ih.mpr ⟨as, b, h2⟩

theorem containsStr_iff (s pat : String) :
    containsStr s pat = true ↔ ∃ a b, s.data = a ++ (pat.data ++ b) :=
  hasInfixL_iff pat.data s.data

/-! ### Credential-rotation theorems (C1) -/

/-- Did this attempt come back as HTTP 429? -/
def is429 {α : Type} : CallOutcome α → Bool
  | .resp s _ => s == 429
  | .exn _ => false

theorem geminiRotate_isErr {α : Type} (n : Nat) :
    ∀ (l : List (CallOutcome α)) (le : Option String),
      (geminiRotate n l le).isErr = true ↔ ∀ o ∈ l, retryable o = true := by
  intro l
  induction l with
  | nil =>
    intro le
    simp [geminiRotate, GeminiResult.isErr]
  | cons o rest ih =>
    intro le
    by_cases hro : retryable o = true
    · simp only [geminiRotate]
      rw [if_pos hro, ih]
      simp [hro]
    · simp only [geminiRotate]
      rw [if_neg hro]
      cases o with
      | exn c => exact absurd rfl hro
      | resp s body =>
        constructor
        · intro h
          exact absurd h (by simp [GeminiResult.isErr])
        · intro h
          exact absurd (h _ (by simp)) hro

theorem geminiRotate_success {α : Type} (n : Nat) :
    ∀ (pre : List (CallOutcome α)) (body : α) (le : Option String),
      (∀ o ∈ pre, retryable o = true) →
      geminiRotate n (pre ++ [CallOutcome.resp 200 body]) le =
        GeminiResult.ok body := by
  intro pre
  induction pre with
  | nil =>
    intro body le _
    have h200 : retryable (CallOutcome.resp 200 body) = false := rfl
    rw [List.nil_append]
    simp only [geminiRotate]
    rw [if_neg (by simp [h200])]
  | cons o rest ih =>
    intro body le h
    have hro : retryable o = true := h o (by simp)
    rw [List.cons_append]
    simp only [geminiRotate]
    rw [if_pos hro]
    exact ih body _ (fun o' hm => h o' (by simp [hm]))

theorem geminiRotate_all429 {α : Type} (n : Nat) :
    ∀ (l : List (CallOutcome α)) (le : Option String), l ≠ [] →
      (∀ o ∈ l, is429 o = true) →
      geminiRotate n l le =
        GeminiResult.error (allKeysFailedMsg n (some "Rate limited (429)")) := by
  intro l
  induction l with
  | nil =>
    intro le hne _
    exact absurd rfl hne
  | cons o rest ih =>
    intro le _ h
    have ho : is429 o = true := h o (by simp)
    cases o with
    | exn c => simp [is429] at ho
    | resp s body =>
      have hs : s = 429 := by simpa [is429] using ho
      subst hs
      have hr : retryable (CallOutcome.resp 429 body) = true := rfl
      simp only [geminiRotate]
      rw [if_pos hr]
      cases rest with
      | nil => rfl
      | cons o2 rest2 =>
        exact ih _ (by simp) (fun o' hm => h o' (by simp [hm]))

/-- C1: the credential-rotation gateway errors exactly when the pool is
empty or every attempt is retryable (429, 500/503, or an exception); a
pool whose first attempts are all retryable and whose last returns 200
yields that successful body; an all-429 pool yields the single aggregate
error naming the pool size and last cause; the aggregate message contains
the pool size and the cause; and an empty pool fails at once with the
configuration error. -/
theorem gemini_rotation_spec :
    (∀ (α : Type) (outcomes : List (CallOutcome α)),
      (geminiRequest outcomes).isErr = true ↔
        (outcomes = [] ∨ ∀ o ∈ outcomes, retryable o = true)) ∧
    (∀ (α : Type) (pre : List (CallOutcome α)) (body : α),
      (∀ o ∈ pre, retryable o = true) →
      geminiRequest (pre ++ [CallOutcome.resp 200 body]) =
        GeminiResult.ok body) ∧
    (∀ (α : Type) (outcomes : List (CallOutcome α)),
      outcomes ≠ [] → (∀ o ∈ outcomes, is429 o = true) →
      geminiRequest outcomes = GeminiResult.error
        (allKeysFailedMsg outcomes.length (some "Rate limited (429)"))) ∧
    (∀ (n : Nat) (c : String),
      containsStr (allKeysFailedMsg n (some c)) (toString n) = true ∧
      containsStr (allKeysFailedMsg n (some c)) c = true) ∧
    (∀ (α : Type), geminiRequest ([] : List (CallOutcome α)) =
      GeminiResult.error "No Gemini API keys configured in config.json") := by
  refine ⟨?_, ?_, ?_, ?_, fun α => rfl⟩
  · intro α outcomes
    cases outcomes with
    | nil => simp [geminiRequest, GeminiResult.isErr]
    | cons o rest =>
      rw [geminiRequest, if_neg (by simp)]
      rw [geminiRotate_isErr]
      simp
  · intro α pre body h
    rw [geminiRequest, if_neg (by simp)]
    exact geminiRotate_success _ pre body none h
  · intro α outcomes hne h
    rw [geminiRequest, if_neg (by simpa using hne)]
    exact geminiRotate_all429 _ outcomes none hne h
  · intro n c
    constructor
    · rw [containsStr_iff]
      refine ⟨"All ".data, (" API keys failed. Last error: " ++ c).data, ?_⟩
      show ("All " ++ toString n ++ " API keys failed. Last error: " ++ c).data = _
      simp [List.append_assoc]
    · rw [containsStr_iff]
      refine ⟨("All " ++ toString n ++ " API keys failed. Last error: ").data,
        [], ?_⟩
      show ("All " ++ toString n ++ " API keys failed. Last error: " ++ c).data = _
      simp

/-- Witness for C1: with two retryable attempts (a 429 and a timeout)
followed by a 200, the gateway returns the successful body; with two 429
attempts the gateway returns the aggregate error naming the pool size 2. -/
theorem gemini_rotation_spec_witness :
    geminiRequest ([CallOutcome.resp 429 0, CallOutcome.exn "Request timeout",
        CallOutcome.resp 200 7] : List (CallOutcome Nat)) =
      GeminiResult.ok 7 ∧
    geminiRequest ([CallOutcome.resp 429 0, CallOutcome.resp 429 1] :
        List (CallOutcome Nat)) =
      GeminiResult.error "All 2 API keys failed. Last error: Rate limited (429)" := by
  constructor
  · exact gemini_rotation_spec.2.1 Nat
      [CallOutcome.resp 429 0, CallOutcome.exn "Request timeout"] 7
      (by intro o ho
          simp only [List.mem_cons, List.mem_singleton] at ho
          rcases ho with rfl | rfl | h
          · rfl
          · rfl
          · cases h)
  · have h := gemini_rotation_spec.2.2.1 Nat
      [CallOutcome.resp 429 0, CallOutcome.resp 429 1] (by simp)
      (by intro o ho
          simp only [List.mem_cons, List.mem_singleton] at ho
          rcases ho with rfl | rfl | h
          · rfl
          · rfl
          · cases h)
    rw [h]
    rfl

/-! ### Classifier theorems (C9) -/

theorem hasInfixL_map_toLower {p s : List Char} (h : hasInfixL p s = true) :
    hasInfixL (p.map Char.toLower) (s.map Char.toLower) = true := by
  obtain ⟨a, b, rfl⟩ := (hasInfixL_iff p s).mp h
  exact (hasInfixL_iff _ _).mpr
    ⟨a.map Char.toLower, b.map Char.toLower, by simp⟩

theorem hasInfixL_trans {q p s : List Char} (h1 : hasInfixL q p = true)
    (h2 : hasInfixL p s = true) : hasInfixL q s = true := by
  obtain ⟨a, b, rfl⟩ := (hasInfixL_iff q p).mp h1
  obtain ⟨c, d, rfl⟩ := (hasInfixL_iff _ s).mp h2
  exact (hasInfixL_iff q _).mpr ⟨c ++ a, b ++ d, by simp⟩

theorem containsStr_lower_of_contains {s lit pat : String}
    (hlit : containsStr s lit = true)
    (hmap : lit.data.map Char.toLower = lit.data)
    (hpat : hasInfixL pat.data lit.data = true) :
    containsStr (strLower s) pat = true := by
  have h1 : hasInfixL (lit.data.map Char.toLower)
      (s.data.map Char.toLower) = true := hasInfixL_map_toLower hlit
  rw [hmap] at h1
  show hasInfixL pat.data (strLower s).data = true
  exact hasInfixL_trans hpat h1

theorem dropPrefixL_append (p r : List Char) : dropPrefixL p (p ++ r) = some r := by
  induction p with
  | nil => rfl
  | cons c cs ih => simp [dropPrefixL, ih]

theorem hasTimeSeriesAt_lit (b : List Char) :
    hasTimeSeriesAt ("\"time_series\": [[\"2024\", 100.0]]".data ++ b) = true := by
  have hsplit : "\"time_series\": [[\"2024\", 100.0]]".data =
      "\"time_series\":".data ++
        (' ' :: '[' :: '[' :: "\"2024\", 100.0]]".data) := rfl
  rw [hsplit, List.append_assoc]
  unfold hasTimeSeriesAt
  rw [dropPrefixL_append]
  simp [skipWs, isPyWs]

theorem searchTimeSeriesL_append (a l : List Char)
    (h : hasTimeSeriesAt l = true) : searchTimeSeriesL (a ++ l) = true := by
  induction a with
  | nil =>
    cases l with
    | nil => simpa [searchTimeSeriesL] using h
    | cons c cs => simp [searchTimeSeriesL, h]
  | cons c cs ih => simp [searchTimeSeriesL, ih]

theorem hasTimeSeriesData_of_contains (s : String)
    (h : containsStr s "\"time_series\": [[\"2024\", 100.0]]" = true) :
    hasTimeSeriesData s = true := by
  obtain ⟨a, b, hab⟩ := (containsStr_iff _ _).mp h
  unfold hasTimeSeriesData
  rw [hab]
  exact searchTimeSeriesL_append a _ (hasTimeSeriesAt_lit b)

theorem searchEmptyFlag_of_contains (s : String)
    (h : containsStr s "\"indicators\": []" = true) :
    searchEmptyFlag s = true := by
  have h1 : containsStr (strLower s) "\"indicators\":" = true :=
    containsStr_lower_of_contains h (by decide) (by decide)
  have h2 : containsStr (strLower s) "[]" = true :=
    containsStr_lower_of_contains h (by decide) (by decide)
  simp [searchEmptyFlag, h1, h2]

theorem availStep_noVariables (fl : AvailFlags) (tc : ToolCallInfo) :
    (availStep fl tc).noVariables =
      (fl.noVariables ||
        ((tc.name == "search_indicators") && searchEmptyFlag tc.result)) := by
  by_cases h1 : (tc.name == "search_indicators") = true
  · simp [availStep, h1]
  · rw [Bool.not_eq_true] at h1
    by_cases h2 : (tc.name == "get_observations") = true
    · simp [availStep, h1, h2]
    · rw [Bool.not_eq_true] at h2
      simp [availStep, h1, h2]

theorem availStep_hasAny (fl : AvailFlags) (tc : ToolCallInfo) :
    (availStep fl tc).hasAnyObservations =
      (fl.hasAnyObservations ||
        ((tc.name == "get_observations") && hasTimeSeriesData tc.result)) := by
  by_cases h1 : (tc.name == "search_indicators") = true
  · have hne : (tc.name == "get_observations") = false := by
      have := beq_iff_eq.mp h1
      simp [this]
    simp [availStep, h1, hne]
  · rw [Bool.not_eq_true] at h1
    by_cases h2 : (tc.name == "get_observations") = true
    · simp [availStep, h1, h2]
    · rw [Bool.not_eq_true] at h2
      simp [availStep, h1, h2]

theorem foldl_availStep_searchEmpty :
    ∀ (tcs : List ToolCallInfo) (fl : AvailFlags), tcs ≠ [] →
      (∀ tc ∈ tcs, tc.name = "search_indicators" ∧
        searchEmptyFlag tc.result = true) →
      tcs.foldl availStep fl =
        { fl with searchCalled := true, noVariables := true } := by
  intro tcs
  induction tcs with
  | nil =>
    intro fl h _
    exact absurd rfl h
  | cons tc rest ih =>
    intro fl _ h
    obtain ⟨hn, hf⟩ := h tc (by simp)
    have hstep : availStep fl tc =
        { fl with searchCalled := true, noVariables := true } := by
      simp [availStep, hn, hf]
    rw [List.foldl_cons, hstep]
    cases rest with
    | nil => rfl
    | cons tc2 rest2 =>
      exact ih _ (by simp) (fun tc' hm => h tc' (by simp [hm]))

theorem foldl_availStep_noVars :
    ∀ (tcs : List ToolCallInfo) (fl : AvailFlags),
      (∀ tc ∈ tcs, tc.name = "search_indicators" →
        searchEmptyFlag tc.result = false) →
      fl.noVariables = false → (tcs.foldl availStep fl).noVariables = false := by
  intro tcs
  induction tcs with
  | nil =>
    intro fl _ hfl
    exact hfl
  | cons tc rest ih =>
    intro fl h hfl
    rw [List.foldl_cons]
    refine ih _ (fun tc' hm => h tc' (by simp [hm])) ?_
    rw [availStep_noVariables, hfl, Bool.false_or]
    by_cases hn : (tc.name == "search_indicators") = true
    · rw [hn, Bool.true_and]
      exact h tc (by simp) (beq_iff_eq.mp hn)
    · rw [Bool.not_eq_true] at hn
      rw [hn, Bool.false_and]

theorem foldl_availStep_hasAny_mono :
    ∀ (tcs : List ToolCallInfo) (fl : AvailFlags),
      fl.hasAnyObservations = true →
      (tcs.foldl availStep fl).hasAnyObservations = true := by
  intro tcs
  induction tcs with
  | nil =>
    intro fl hfl
    exact hfl
  | cons tc rest ih =>
    intro fl hfl
    rw [List.foldl_cons]
    exact ih _ (by rw [availStep_hasAny, hfl, Bool.true_or])

theorem foldl_availStep_hasAny_of_mem :
    ∀ (tcs : List ToolCallInfo) (fl : AvailFlags) (tc : ToolCallInfo),
      tc ∈ tcs → tc.name = "get_observations" →
      hasTimeSeriesData tc.result = true →
      (tcs.foldl availStep fl).hasAnyObservations = true := by
  intro tcs
  induction tcs with
  | nil =>
    intro fl tc hm
    exact absurd hm (by simp)
  | cons tc0 rest ih =>
    intro fl tc hm hn hts
    rw [List.foldl_cons]
    rcases List.mem_cons.mp hm with rfl | hm'
    · refine foldl_availStep_hasAny_mono rest _ ?_
      rw [availStep_hasAny, hn, hts]
      simp
    · exact ih _ tc hm' hn hts

/-- Counterexample to C9 as stated: a tool-call list containing a
`get_observations` record with a populated time series is nevertheless
classified `hasData = false` when it also contains a `search_indicators`
record with an empty indicator list, because the search-empty branch
overrides everything. -/
theorem data_availability_counterexample :
    (checkDataAvailability
      [⟨"search_indicators", [], "\"indicators\": []", "success"⟩,
       ⟨"get_observations", [], "\"time_series\": [[\"2024\", 100.0]]",
        "success"⟩]).hasData = false := by
  decide

/-- C9 (amended): a non-empty tool-call list of `search_indicators`
records whose results contain an empty indicator list classifies as
`hasData = false` with `noVariablesFound = true`; and a list containing
a `get_observations` record whose result contains a populated time-series
array classifies as `hasData = true`, provided no `search_indicators`
record in the list is flagged as an empty match. -/
theorem data_availability_classification :
    (∀ tcs : List ToolCallInfo, tcs ≠ [] →
      (∀ tc ∈ tcs, tc.name = "search_indicators" ∧
        containsStr tc.result "\"indicators\": []" = true) →
      (checkDataAvailability tcs).hasData = false ∧
      (checkDataAvailability tcs).noVariablesFound = true) ∧
    (∀ (tcs : List ToolCallInfo) (tc : ToolCallInfo), tc ∈ tcs →
      tc.name = "get_observations" →
      containsStr tc.result "\"time_series\": [[\"2024\", 100.0]]" = true →
      (∀ tc' ∈ tcs, tc'.name = "search_indicators" →
        searchEmptyFlag tc'.result = false) →
      (checkDataAvailability tcs).hasData = true) := by
  constructor
  · intro tcs hne h
    have hfold := foldl_availStep_searchEmpty tcs initAvailFlags hne
      (fun tc hm => ⟨(h tc hm).1, searchEmptyFlag_of_contains _ (h tc hm).2⟩)
    unfold checkDataAvailability
    rw [hfold]
    exact ⟨rfl, rfl⟩
  · intro tcs tc hmem hn hts hnosearch
    have h1 : (tcs.foldl availStep initAvailFlags).noVariables = false :=
      foldl_availStep_noVars tcs initAvailFlags hnosearch rfl
    have h2 : (tcs.foldl availStep initAvailFlags).hasAnyObservations = true :=
      foldl_availStep_hasAny_of_mem tcs initAvailFlags tc hmem hn
        (hasTimeSeriesData_of_contains _ hts)
    unfold checkDataAvailability
    simp [h1, h2]

/-- Witness for C9 (amended): a lone empty `search_indicators` record
classifies as no-data/no-variables, and a lone populated
`get_observations` record classifies as having data. -/
theorem data_availability_classification_witness :
    (checkDataAvailability
      [⟨"search_indicators", [], "\"indicators\": []", "success"⟩]).hasData =
        false ∧
    (checkDataAvailability
      [⟨"search_indicators", [], "\"indicators\": []",
        "success"⟩]).noVariablesFound = true ∧
    (checkDataAvailability
      [⟨"get_observations", [], "\"time_series\": [[\"2024\", 100.0]]",
        "success"⟩]).hasData = true := by
  refine ⟨?_, ?_, ?_⟩
  · exact (data_availability_classification.1 _ (by simp)
      (by intro tc hm
          simp only [List.mem_singleton] at hm
          rw [hm]
          exact ⟨rfl, by decide⟩)).1
  · exact (data_availability_classification.1 _ (by simp)
      (by intro tc hm
          simp only [List.mem_singleton] at hm
          rw [hm]
          exact ⟨rfl, by decide⟩)).2
  · exact data_availability_classification.2 _
      ⟨"get_observations", [], "\"time_series\": [[\"2024\", 100.0]]",
        "success"⟩ (by simp) rfl (by decide)
      (by intro tc' hm
          simp only [List.mem_singleton] at hm
          rw [hm]
          intro hcontra
          exact absurd hcontra (by decide))

/-! ### Knowledge-base gating theorem (C6) -/

/-- C6: with the correct shared secret and `kb=true`, against a base
configuration that disables the knowledge base but has a store and a key
configured, `chat_stream` enters the knowledge-base phase (the effective
configuration enables it) — yet `execute_kb_query` reloads the BASE
configuration, sees the capability disabled, and no-ops with the empty
result after zero Gateway calls.  The second conjunct shows that the same
query against the override-applied configuration would have performed the
grounded-retrieval call and produced a response with sources. -/
theorem kb_override_not_applied :
    chatStreamKbPhase ⟨false, "store-1", ["k1"], "secret"⟩ "secret"
        (some "true")
        [CallOutcome.resp 200 ⟨[⟨[some "grounded answer"],
          [some (some "Doc A", some "uri-a")]⟩]⟩] =
      some (⟨"", []⟩, 0) ∧
    executeKbQuery
        (applyQueryOverrides ⟨false, "store-1", ["k1"], "secret"⟩
          ⟨some "true"⟩)
        [CallOutcome.resp 200 ⟨[⟨[some "grounded answer"],
          [some (some "Doc A", some "uri-a")]⟩]⟩] =
      (⟨"grounded answer", [("Doc A", "uri-a")]⟩, 1) := by
  exact ⟨rfl, rfl⟩

/-! ### Tool-loop theorems (C2, C8) -/

/-- Does a gateway result carry at least one function-call part in its
first candidate (the shape of a model that keeps requesting tools)? -/
def respAlwaysCalls : GeminiResult GeminiBody → Bool
  | .ok body =>
    match body.candidates with
    | cand :: _ =>
      !(cand.contentParts.filterMap (fun p =>
          match p with
          | GPart.functionCall n a => some (n, a)
          | _ => none)).isEmpty
    | [] => false
  | .error _ => false

theorem loopGo_iterations_le (modelFn : List Content → GeminiResult GeminiBody)
    (toolRunner : String → ArgDict → List (String × JsonV)) :
    ∀ (fuel : Nat) (contents : List Content) (toolCalls : List ToolCallInfo)
      (allResults : List String) (iters : Nat) (out : LoopOut),
      execMcpToolLoopGo modelFn toolRunner fuel contents toolCalls allResults
        iters = .ok out →
      out.iterations ≤ iters + fuel := by
  intro fuel
  induction fuel with
  | zero =>
    intro contents toolCalls allResults iters out h
    simp only [execMcpToolLoopGo] at h
    injection h with h'
    rw [← h']
    simp
  | succ fuel ih =>
    intro contents toolCalls allResults iters out h
    simp only [execMcpToolLoopGo] at h
    split at h
    · injection h with h'
      rw [← h']
      simp
    · split at h
      · injection h with h'
        rw [← h']
        simp
      · split at h
        · injection h with h'
          rw [← h']
          simp
        · split at h
          · cases h
          · have := ih _ _ _ _ _ h
            omega

theorem runFunctionCalls_isOk
    (toolRunner : String → ArgDict → List (String × JsonV))
    (h : ∀ (n : String) (a : ArgDict),
      (stringifyToolResult (callTool toolRunner n a)).isSome = true) :
    ∀ fcs : List (String × ArgDict),
      ∃ t, runFunctionCalls toolRunner fcs = .ok t := by
  intro fcs
  induction fcs with
  | nil => exact ⟨([], [], []), rfl⟩
  | cons p rest ih =>
    rcases p with ⟨name, args⟩
    obtain ⟨t, ht⟩ := ih
    rcases t with ⟨calls, results, parts⟩
    rcases hs : stringifyToolResult (callTool toolRunner name args) with _ | rt
    · exact absurd (h name args) (by simp [hs])
    · refine ⟨(mkToolCallInfo name args rt :: calls,
        ("Tool: " ++ name ++ "\nResult: " ++ rt) :: results,
        GPart.functionResponse name rt :: parts), ?_⟩
      simp only [runFunctionCalls, hs, ht]

theorem loopGo_exact (modelFn : List Content → GeminiResult GeminiBody)
    (toolRunner : String → ArgDict → List (String × JsonV))
    (hm : ∀ cs, respAlwaysCalls (modelFn cs) = true)
    (hr : ∀ (n : String) (a : ArgDict),
      (stringifyToolResult (callTool toolRunner n a)).isSome = true) :
    ∀ (fuel : Nat) (contents : List Content) (toolCalls : List ToolCallInfo)
      (allResults : List String) (iters : Nat),
      ∃ out, execMcpToolLoopGo modelFn toolRunner fuel contents toolCalls
          allResults iters = .ok out ∧
        out.finalText = "Max tool iterations reached" ∧
        out.iterations = iters + fuel := by
  intro fuel
  induction fuel with
  | zero =>
    intro contents toolCalls allResults iters
    exact ⟨_, rfl, rfl, by simp⟩
  | succ fuel ih =>
    intro contents toolCalls allResults iters
    have hmc := hm contents
    rcases hmod : modelFn contents with body | msg
    · rw [hmod] at hmc
      simp only [respAlwaysCalls] at hmc
      rcases hcand : body.candidates with _ | ⟨cand, crest⟩
      · rw [hcand] at hmc
        cases hmc
      · rw [hcand] at hmc
        have hemp : (cand.contentParts.filterMap (fun p =>
            match p with
            | GPart.functionCall n a => some (n, a)
            | _ => none)).isEmpty = false := by
          simpa using hmc
        obtain ⟨t, ht⟩ := runFunctionCalls_isOk toolRunner hr
          (cand.contentParts.filterMap (fun p =>
            match p with
            | GPart.functionCall n a => some (n, a)
            | _ => none))
        rcases t with ⟨newCalls, newResults, fresps⟩
        obtain ⟨out, hout, hft, hit⟩ := ih
          (contents ++ [⟨"model", cand.contentParts⟩, ⟨"user", fresps⟩])
          (toolCalls ++ newCalls) (allResults ++ newResults) (iters + 1)
        refine ⟨out, ?_, hft, by omega⟩
        simp only [execMcpToolLoopGo, hmod, hcand, hemp, Bool.false_eq_true,
          if_false, ht]
        exact hout
    · have := hm contents
      rw [hmod] at this
      cases this

/-- A model oracle that answers every request with exactly one
function-call part. -/
def cexModel : List Content → GeminiResult GeminiBody :=
  fun _ => GeminiResult.ok ⟨[⟨[GPart.functionCall "get_observations" []]⟩]⟩

/-- A tool runner whose every response dict is `{"result": "ok"}`. -/
def cexRunner : String → ArgDict → List (String × JsonV) :=
  fun _ _ => [("result", JsonV.str "ok")]

/-- Counterexample to C2 as stated: against a model that always emits a
function call, the loop with `maxIterations = 1` exits with final text
`Max tool iterations reached`, which is not the quoted sentinel
`max iterations reached`. -/
theorem tool_loop_sentinel_counterexample :
    execMcpToolLoop cexModel cexRunner true "population of California" [] 1 =
      Except.ok ⟨"Tool: get_observations\nResult: ok",
        [⟨"get_observations", [], "ok", "success"⟩],
        "Max tool iterations reached", 1⟩ ∧
    "Max tool iterations reached" ≠ "max iterations reached" := by
  exact ⟨rfl, by decide⟩

/-- C2 (amended): the tool-calling loop performs at most `maxIterations`
iterations for every input; and against a model that answers every
request with at least one function-call part (with tool results that
stringify), it runs exactly `maxIterations` iterations and returns the
accumulated tool-call list with the sentinel final text
`Max tool iterations reached`. -/
theorem tool_loop_termination :
    (∀ (modelFn : List Content → GeminiResult GeminiBody)
       (toolRunner : String → ArgDict → List (String × JsonV))
       (avail : Bool) (msg : String) (hist : List Content)
       (maxIter : Nat) (out : LoopOut),
      execMcpToolLoop modelFn toolRunner avail msg hist maxIter =
        Except.ok out →
      out.iterations ≤ maxIter) ∧
    (∀ (modelFn : List Content → GeminiResult GeminiBody)
       (toolRunner : String → ArgDict → List (String × JsonV))
       (msg : String) (hist : List Content) (maxIter : Nat),
      (∀ cs, respAlwaysCalls (modelFn cs) = true) →
      (∀ (n : String) (a : ArgDict),
        (stringifyToolResult (callTool toolRunner n a)).isSome = true) →
      ∃ out, execMcpToolLoop modelFn toolRunner true msg hist maxIter =
          Except.ok out ∧
        out.iterations = maxIter ∧
        out.finalText = "Max tool iterations reached") := by
  constructor
  · intro modelFn toolRunner avail msg hist maxIter out h
    unfold execMcpToolLoop at h
    by_cases ha : avail = true
    · rw [ha] at h
      simp only [Bool.not_true, Bool.false_eq_true, if_false] at h
      have := loopGo_iterations_le modelFn toolRunner maxIter _ _ _ _ _ h
      omega
    · rw [Bool.not_eq_true] at ha
      rw [ha] at h
      simp only [Bool.not_false, if_true] at h
      injection h with h'
      rw [← h']
      simp
  · intro modelFn toolRunner msg hist maxIter hm hr
    obtain ⟨out, hout, hft, hit⟩ :=
      loopGo_exact modelFn toolRunner hm hr maxIter
        [⟨"user", [GPart.textPart msg]⟩] [] [] 0
    refine ⟨out, ?_, by omega, hft⟩
    unfold execMcpToolLoop
    simpa using hout

/-- Witness for C2 (amended): with the always-function-calling model and
`maxIterations = 2`, the loop runs exactly 2 iterations and ends with the
max-iterations sentinel. -/
theorem tool_loop_termination_witness :
    (execMcpToolLoop cexModel cexRunner true "population" [] 2).map
        LoopOut.iterations = Except.ok 2 ∧
    (execMcpToolLoop cexModel cexRunner true "population" [] 2).map
        LoopOut.finalText = Except.ok "Max tool iterations reached" := by
  obtain ⟨out, h1, h2, h3⟩ := tool_loop_termination.2 cexModel cexRunner
    "population" [] 2 (fun _ => rfl) (fun _ _ => rfl)
  rw [h1]
  exact ⟨by rw [Except.map, h2], by rw [Except.map, h3]⟩

theorem strLen_append (s t : String) : (s ++ t).length = s.length + t.length := by
  rcases s with ⟨sd⟩
  rcases t with ⟨td⟩
  show (sd ++ td).length = sd.length + td.length
  exact List.length_append sd td

theorem strLen_strTake (s : String) (n : Nat) :
    (strTake s n).length = min n s.length := by
  rcases s with ⟨sd⟩
  show (sd.take n).length = min n sd.length
  exact List.length_take n sd

theorem mkToolCallInfo_result_eq (name : String) (args : ArgDict)
    (resultText : String) :
    (mkToolCallInfo name args resultText).result =
      (if resultText.length > 500 then strTake resultText 500 ++ "..."
       else resultText) := rfl

theorem mkToolCallInfo_status_eq (name : String) (args : ArgDict)
    (resultText : String) :
    (mkToolCallInfo name args resultText).status =
      (if containsStr (strLower resultText) "error" then "error"
       else "success") := rfl

theorem mkToolCallInfo_result_le (name : String) (args : ArgDict)
    (resultText : String) :
    (mkToolCallInfo name args resultText).result.length ≤ 503 := by
  rw [mkToolCallInfo_result_eq]
  by_cases h : resultText.length > 500
  · rw [if_pos h, strLen_append, strLen_strTake]
    have h3 : ("..." : String).length = 3 := rfl
    rw [h3]
    omega
  · rw [if_neg h]
    omega

theorem mkToolCallInfo_status_iff (name : String) (args : ArgDict)
    (resultText : String) :
    ((mkToolCallInfo name args resultText).status = "error" ↔
      containsStr (strLower resultText) "error" = true) := by
  rw [mkToolCallInfo_status_eq]
  by_cases h : containsStr (strLower resultText) "error" = true
  · simp [h]
  · rw [Bool.not_eq_true] at h
    simp [h]

/-- The shape every externally visible tool-call record has. -/
def recordShaped (tc : ToolCallInfo) : Prop :=
  tc.result.length ≤ 503 ∧ (tc.status = "error" ∨ tc.status = "success")

theorem mkToolCallInfo_shaped (name : String) (args : ArgDict)
    (resultText : String) : recordShaped (mkToolCallInfo name args resultText) := by
  refine ⟨mkToolCallInfo_result_le name args resultText, ?_⟩
  rw [mkToolCallInfo_status_eq]
  by_cases h : containsStr (strLower resultText) "error" = true
  · rw [if_pos h]
    exact Or.inl rfl
  · rw [Bool.not_eq_true] at h
    rw [if_neg (by simp [h])]
    exact Or.inr rfl

theorem runFunctionCalls_records
    (toolRunner : String → ArgDict → List (String × JsonV)) :
    ∀ (fcs : List (String × ArgDict))
      (t : List ToolCallInfo × List String × List GPart),
      runFunctionCalls toolRunner fcs = .ok t →
      ∀ tc ∈ t.1, ∃ n a rt, tc = mkToolCallInfo n a rt := by
  intro fcs
  induction fcs with
  | nil =>
    intro t h tc hm
    injection h with h'
    rw [← h'] at hm
    simp at hm
  | cons p rest ih =>
    intro t h tc hm
    rcases p with ⟨name, args⟩
    rcases hs : stringifyToolResult (callTool toolRunner name args) with _ | rt
    · simp only [runFunctionCalls, hs] at h
      cases h
    · rcases hrec : runFunctionCalls toolRunner rest with e | t'
      · simp only [runFunctionCalls, hs, hrec] at h
        cases h
      · rcases t' with ⟨calls, results, parts⟩
        simp only [runFunctionCalls, hs, hrec] at h
        injection h with h'
        rw [← h'] at hm
        rcases List.mem_cons.mp hm with rfl | hm'
        · exact ⟨name, args, rt, rfl⟩
        · exact ih (calls, results, parts) hrec tc hm'

theorem loopGo_records (modelFn : List Content → GeminiResult GeminiBody)
    (toolRunner : String → ArgDict → List (String × JsonV)) :
    ∀ (fuel : Nat) (contents : List Content) (toolCalls : List ToolCallInfo)
      (allResults : List String) (iters : Nat) (out : LoopOut),
      (∀ tc ∈ toolCalls, recordShaped tc) →
      execMcpToolLoopGo modelFn toolRunner fuel contents toolCalls allResults
        iters = .ok out →
      ∀ tc ∈ out.toolCalls, recordShaped tc := by
  intro fuel
  induction fuel with
  | zero =>
    intro contents toolCalls allResults iters out hinv h
    simp only [execMcpToolLoopGo] at h
    injection h with h'
    rw [← h']
    intro tc hm
    exact hinv tc hm
  | succ fuel ih =>
    intro contents toolCalls allResults iters out hinv h
    rcases hmod : modelFn contents with body | msg
    · rcases hcand : body.candidates with _ | ⟨cand, crest⟩
      · simp only [execMcpToolLoopGo, hmod, hcand] at h
        injection h with h'
        rw [← h']
        intro tc hm
        exact hinv tc hm
      · rcases hfc : (cand.contentParts.filterMap (fun p =>
            match p with
            | GPart.functionCall n a => some (n, a)
            | _ => none)).isEmpty with _ | _
        · rcases hrec : runFunctionCalls toolRunner
              (cand.contentParts.filterMap (fun p =>
                match p with
                | GPart.functionCall n a => some (n, a)
                | _ => none)) with e | t
          · simp only [execMcpToolLoopGo, hmod, hcand, hfc,
              Bool.false_eq_true, if_false, hrec] at h
            cases h
          · rcases t with ⟨calls, results, parts⟩
            simp only [execMcpToolLoopGo, hmod, hcand, hfc,
              Bool.false_eq_true, if_false, hrec] at h
            refine ih _ _ _ _ _ ?_ h
            intro tc hm
            rcases List.mem_append.mp hm with h1 | h2
            · exact hinv tc h1
            · obtain ⟨n, a, rt, rfl⟩ := runFunctionCalls_records toolRunner _
                (calls, results, parts) hrec tc h2
              exact mkToolCallInfo_shaped n a rt
        · simp only [execMcpToolLoopGo, hmod, hcand, hfc, if_true] at h
          injection h with h'
          rw [← h']
          intro tc hm
          exact hinv tc hm
    · simp only [execMcpToolLoopGo, hmod] at h
      injection h with h'
      rw [← h']
      intro tc hm
      exact hinv tc hm

/-- A 501-character tool result. -/
def longResultString : String := String.mk (List.replicate 501 'a')

/-- A model oracle requesting one `fetch_data` call each turn. -/
def c8Model : List Content → GeminiResult GeminiBody :=
  fun _ => GeminiResult.ok ⟨[⟨[GPart.functionCall "fetch_data" []]⟩]⟩

/-- A tool runner answering with the 501-character result. -/
def c8Runner : String → ArgDict → List (String × JsonV) :=
  fun _ _ => [("result", JsonV.str longResultString)]

set_option maxRecDepth 40000 in
/-- Counterexample to C8 as stated: a 501-character tool result is stored
in the externally visible record as its first 500 characters plus an
ellipsis — 503 characters, exceeding the claimed 500-character bound. -/
theorem record_truncation_counterexample :
    execMcpToolLoop c8Model c8Runner true "q" [] 1 =
      Except.ok ⟨"Tool: fetch_data\nResult: " ++ longResultString,
        [⟨"fetch_data", [], strTake longResultString 500 ++ "...", "success"⟩],
        "Max tool iterations reached", 1⟩ ∧
    (strTake longResultString 500 ++ "...").length = 503 := by
  constructor
  · rfl
  · have h1 : longResultString.length = 501 := by
      show (List.replicate 501 'a').length = 501
      rw [List.length_replicate]
    rw [strLen_append, strLen_strTake, h1]
    decide

/-- C8 (amended): the record of each tool invocation stores the
stringified result truncated to its first 500 characters plus an ellipsis
when longer than 500 (hence at most 503 characters), and its status is
`error` exactly when the lowercased stringified result contains `error`;
every record in the loop's tool-call list is of this bounded shape. -/
theorem record_truncation_spec :
    (∀ (name : String) (args : ArgDict) (resultText : String),
      (mkToolCallInfo name args resultText).result =
        (if resultText.length > 500 then strTake resultText 500 ++ "..."
         else resultText) ∧
      (mkToolCallInfo name args resultText).result.length ≤ 503 ∧
      ((mkToolCallInfo name args resultText).status = "error" ↔
        containsStr (strLower resultText) "error" = true)) ∧
    (∀ (modelFn : List Content → GeminiResult GeminiBody)
       (toolRunner : String → ArgDict → List (String × JsonV))
       (avail : Bool) (msg : String) (hist : List Content)
       (maxIter : Nat) (out : LoopOut),
      execMcpToolLoop modelFn toolRunner avail msg hist maxIter =
        Except.ok out →
      ∀ tc ∈ out.toolCalls, tc.result.length ≤ 503 ∧
        (tc.status = "error" ∨ tc.status = "success")) := by
  constructor
  · intro name args resultText
    exact ⟨mkToolCallInfo_result_eq name args resultText,
      mkToolCallInfo_result_le name args resultText,
      mkToolCallInfo_status_iff name args resultText⟩
  · intro modelFn toolRunner avail msg hist maxIter out h tc hm
    unfold execMcpToolLoop at h
    by_cases ha : avail = true
    · rw [ha] at h
      simp only [Bool.not_true, Bool.false_eq_true, if_false] at h
      exact loopGo_records modelFn toolRunner maxIter _ _ _ _ out
        (by intro tc' hm'; simp at hm') h tc hm
    · rw [Bool.not_eq_true] at ha
      rw [ha] at h
      simp only [Bool.not_false, if_true] at h
      injection h with h'
      rw [← h'] at hm
      simp at hm

/-- Witness for C8 (amended): a short result is stored untruncated with
status `success`, and the record produced by a concrete loop run is
within the 503-character bound. -/
theorem record_truncation_spec_witness :
    (mkToolCallInfo "get_observations" [] "ok").result = "ok" ∧
    ((mkToolCallInfo "get_observations" [] "ok").status = "error" ↔
      containsStr (strLower "ok") "error" = true) ∧
    ((⟨"get_observations", [], "ok", "success"⟩ : ToolCallInfo).result.length ≤
        503 ∧
      ((⟨"get_observations", [], "ok", "success"⟩ : ToolCallInfo).status =
          "error" ∨
        (⟨"get_observations", [], "ok", "success"⟩ : ToolCallInfo).status =
          "success")) := by
  refine ⟨?_, ?_, ?_⟩
  · have h := (record_truncation_spec.1 "get_observations" [] "ok").1
    rw [h]
    rfl
  · exact (record_truncation_spec.1 "get_observations" [] "ok").2.2
  · exact record_truncation_spec.2 cexModel cexRunner true "q" [] 1
      ⟨"Tool: get_observations\nResult: ok",
        [⟨"get_observations", [], "ok", "success"⟩],
        "Max tool iterations reached", 1⟩ rfl
      ⟨"get_observations", [], "ok", "success"⟩ (by simp)

end McpProxy
